import Mathlib

/-!
Shallow embedding of the aggregation layer of the shimmy-product analytics
dashboard (src/overall_analysis.py, src/pagewise_analysis.py, src/models.py,
src/data_handler.py), together with proofs settling the frozen claims about
its specification.

Modelling conventions:
* A Python datetime instant is an integer number of seconds; a Python date is
  an integer number of days (the floor division of the instant by 86400).
  Day number 0 is taken to fall on a Monday, so the weekday index of a date
  is its value modulo 7 with 0 = Monday, ..., 6 = Sunday.
* A Python dict built by successive insertions is an association list in
  first-insertion order with unique keys (the function bump increments the
  entry of an existing key in place, exactly like d[k] = d.get(k, 0) + 1).
* collections.Counter over a list is the same association list (Counter
  preserves first-encounter order of keys).
* Python sorted is a stable sort; it is modelled by Mathlib's
  List.insertionSort, which inserts an earlier element before any tied later
  element and is therefore stable in the same sense (proved below in
  filter_insertionSort_eq_filter).
* fetch_users: the database path (application context and query succeed) is
  modelled by db = some table, where table lists the rows (user_id,
  first_login) of the users table; any exception is modelled by db = none,
  in which case the FAKE_USERS fallback dictionary is consulted.  When the
  query succeeds but matches no user, the Python function falls off the end
  of the try block and returns None; that None is modelled by the none
  result, and a caller that then applies dict operations to it faults
  (modelled by the caller returning none as well).
* datetime.max compares greater-or-equal to every representable datetime and
  datetime.min compares strictly less than every representable datetime, so
  the expressions user_first.get(uid, datetime.max) >= threshold and
  user_first.get(uid, datetime.min) < threshold are both True whenever uid
  is absent; dually the two pagewise defaults make both filters False for an
  absent uid.  The four condition functions below encode exactly those
  branch outcomes for the none case.
-/

/-- One session record, the field set of the dummy-data SimpleNamespace in
src/data_handler.py and of the sessions table in src/models.py (the dummy
records, which are the ones compared by value in update_pagewise, carry no
surrogate id column).  timestamp is an instant in seconds. -/
structure SessionRec where
  user_id : String
  timestamp : Int
  page : String
  referral_source : String
  session_time : Rat
  user_agent : String
  feedback : String
deriving DecidableEq, Repr

/-- Seconds per day, used by the date arithmetic of the model. -/
def secondsPerDay : Int := 86400

/-- new_user_threshold_days = 14 in both analysis modules. -/
def new_user_threshold_days : Int := 14

/-- Python date of an instant: floor division of the seconds by 86400. -/
def dateOf (t : Int) : Int := t.fdiv secondsPerDay

/-- d[k] = d.get(k, 0) + 1 on an insertion-ordered dict: increment the first
entry with the given key, or append a fresh entry with count 1. -/
def bump {α : Type} [DecidableEq α] (k : α) : List (α × Nat) → List (α × Nat)
  | [] => [(k, 1)]
  | (k', n) :: rest => if k' = k then (k', n + 1) :: rest else (k', n) :: bump k rest

/-- The insertion-ordered occurrence dict of a list, i.e. the result of the
Python loop for x in l: d[x] = d.get(x, 0) + 1, and also
collections.Counter(l) (Counter preserves first-encounter key order). -/
def counter {α : Type} [DecidableEq α] (l : List α) : List (α × Nat) :=
  List.foldl (fun acc x => bump x acc) [] l

/-- fetch_users (identical in overall_analysis.py and pagewise_analysis.py).
db = some table: the query path succeeds and returns the table rows whose
user_id occurs in user_ids; if that result is nonempty it is returned as a
dict, otherwise the function falls off the end and returns Python None,
modelled as none.  db = none: an exception was raised, and the fallback
dict over FAKE_USERS restricted to user_ids is returned. -/
def fetch_users (user_ids : List String) (db : Option (List (String × Int)))
    (fakeUsers : List (String × Int)) : Option (List (String × Int)) :=
  match db with
  | some table =>
      let users := table.filter (fun u => user_ids.contains u.1)
      if users.isEmpty then none else some users
  | none =>
      some (user_ids.filterMap (fun uid => (fakeUsers.lookup uid).map (fun t => (uid, t))))

/-- user_first.get(s.user_id, datetime.max) >= threshold, the New-filter
condition of aggregate_overall: an absent user defaults to datetime.max,
which is greater-or-equal to every representable threshold. -/
def overallNewCond (user_first : List (String × Int)) (threshold : Int)
    (s : SessionRec) : Bool :=
  match user_first.lookup s.user_id with
  | some t => threshold ≤ t
  | none => true

/-- user_first.get(s.user_id, datetime.min) < threshold, the Old-filter
condition of aggregate_overall: an absent user defaults to datetime.min,
which is strictly less than every representable threshold. -/
def overallOldCond (user_first : List (String × Int)) (threshold : Int)
    (s : SessionRec) : Bool :=
  match user_first.lookup s.user_id with
  | some t => t < threshold
  | none => true

/-- user_first.get(s.user_id, datetime.min) >= threshold, the New-filter
condition of aggregate_pagewise: an absent user defaults to datetime.min,
which is below every representable threshold, so the test is False. -/
def pagewiseNewCond (user_first : List (String × Int)) (threshold : Int)
    (s : SessionRec) : Bool :=
  match user_first.lookup s.user_id with
  | some t => threshold ≤ t
  | none => false

/-- user_first.get(s.user_id, datetime.max) < threshold, the Old-filter
condition of aggregate_pagewise: an absent user defaults to datetime.max,
which is above every representable threshold, so the test is False. -/
def pagewiseOldCond (user_first : List (String × Int)) (threshold : Int)
    (s : SessionRec) : Bool :=
  match user_first.lookup s.user_id with
  | some t => t < threshold
  | none => false

/-- Descending-by-count order used for top_pages; ties are left to the
stability of the sort, exactly like sorted(-, key=count, reverse=True). -/
def byCountDesc (a b : String × Nat) : Prop := b.2 ≤ a.2

instance : DecidableRel byCountDesc :=
  fun a b => inferInstanceAs (Decidable (b.2 ≤ a.2))

/-- Ascending-by-count order used for bottom_pages. -/
def byCountAsc (a b : String × Nat) : Prop := a.2 ≤ b.2

instance : DecidableRel byCountAsc :=
  fun a b => inferInstanceAs (Decidable (a.2 ≤ b.2))

/-- Ascending order on dates, used to sort the daily-traffic series. -/
def byDateAsc (a b : Int × Nat) : Prop := a.1 ≤ b.1

instance : DecidableRel byDateAsc :=
  fun a b => inferInstanceAs (Decidable (a.1 ≤ b.1))

/-- Code-point lexicographic comparison of character lists: exactly the
string comparison Python sorted() performs (compare code points position
by position; a prefix precedes its extensions). -/
def charListLe : List Char → List Char → Bool
  | [], _ => true
  | _ :: _, [] => false
  | c :: cs, d :: ds =>
    if c.toNat < d.toNat then true
    else if d.toNat < c.toNat then false
    else charListLe cs ds

/-- Python string comparison: code-point lexicographic order. -/
def strLe (a b : String) : Bool := charListLe a.data b.data

/-- Lexicographic ascending order on strings, used by sorted() on labels. -/
def byStrAsc (a b : String) : Prop := strLe a b = true

instance : DecidableRel byStrAsc :=
  fun a b => inferInstanceAs (Decidable (strLe a b = true))

/-- Result bundle of aggregate_overall (overall_analysis.py lines 95-105).
traffic_df, top_pages, bottom_pages and source_distribution are
insertion-ordered (page/date/source, count) tables. -/
structure OverallResult where
  total_records : Nat
  distinct_users : Nat
  new_users : Nat
  old_users : Nat
  top_pages : List (String × Nat)
  bottom_pages : List (String × Nat)
  traffic_df : List (Int × Nat)
  filtered_sessions : List SessionRec
  source_distribution : List (String × Nat)
deriving DecidableEq, Repr

/-- aggregate_overall (overall_analysis.py lines 61-105).  Returns none when
fetch_users returns Python None, because the function then faults on
user_first.values() / len(user_first).  user_ids is a Python set; its
iteration order only influences dict order inside fetch_users, never the
counts or session lists below, so it is modelled as first-occurrence
deduplication. -/
def aggregate_overall (sessions : List SessionRec) (db : Option (List (String × Int)))
    (fakeUsers : List (String × Int)) (end_dt : Int) (user_filter : String)
    (new_user_threshold : Int) : Option OverallResult :=
  let user_ids := (sessions.map (fun s => s.user_id)).dedup
  match fetch_users user_ids db fakeUsers with
  | none => none
  | some user_first =>
    let threshold := end_dt - new_user_threshold * secondsPerDay
    let overall_new := user_first.countP (fun u => decide (threshold ≤ u.2))
    let overall_old := user_first.length - overall_new
    let filtered_sessions :=
      if user_filter = "New" then sessions.filter (overallNewCond user_first threshold)
      else if user_filter = "Old" then sessions.filter (overallOldCond user_first threshold)
      else sessions
    let traffic := counter (filtered_sessions.map (fun s => dateOf s.timestamp))
    let page_counts := counter (filtered_sessions.map (fun s => s.page))
    let top_pages := (List.insertionSort byCountDesc page_counts).take 5
    let bottom_pages := (List.insertionSort byCountAsc page_counts).take 5
    let src_counts := counter (sessions.map (fun s => s.referral_source))
    some {
      total_records := sessions.length
      distinct_users := user_first.length
      new_users := overall_new
      old_users := overall_old
      top_pages := top_pages
      bottom_pages := bottom_pages
      traffic_df := List.insertionSort byDateAsc traffic
      filtered_sessions := filtered_sessions
      source_distribution := src_counts }

/-- Result bundle of aggregate_pagewise (pagewise_analysis.py lines 90-95).
user_first is an Option because the Python value can be None (see
fetch_users); the "All" branch never touches it, so the aggregation still
succeeds in that case and hands the None through. -/
structure PagewiseResult where
  total_sessions : Nat
  traffic_df : List (Int × Nat)
  page_sessions : List SessionRec
  user_first : Option (List (String × Int))
deriving DecidableEq, Repr

/-- Builds the pagewise result bundle from the final page_sessions list:
total_sessions = len(page_sessions), traffic_df = the per-date counts sorted
ascending by date (sorted(traffic.items())). -/
def mkPagewiseResult (page_sessions : List SessionRec)
    (user_first : Option (List (String × Int))) : PagewiseResult :=
  { total_sessions := page_sessions.length
    traffic_df :=
      List.insertionSort byDateAsc (counter (page_sessions.map (fun s => dateOf s.timestamp)))
    page_sessions := page_sessions
    user_first := user_first }

/-- aggregate_pagewise (pagewise_analysis.py lines 72-95).  Returns none
when fetch_users returns Python None and a cohort filter is requested,
because user_first.get then faults; with the "All" filter the None value is
never consulted and is passed through in the result. -/
def aggregate_pagewise (sessions : List SessionRec) (page : String)
    (db : Option (List (String × Int))) (fakeUsers : List (String × Int))
    (end_dt : Int) (user_filter : String) (new_user_threshold : Int) :
    Option PagewiseResult :=
  let page_sessions := sessions.filter (fun s => s.page = page)
  let user_ids := (page_sessions.map (fun s => s.user_id)).dedup
  let uf := fetch_users user_ids db fakeUsers
  let threshold := end_dt - new_user_threshold * secondsPerDay
  if user_filter = "New" then
    match uf with
    | none => none
    | some user_first =>
        some (mkPagewiseResult
          (page_sessions.filter (pagewiseNewCond user_first threshold)) (some user_first))
  else if user_filter = "Old" then
    match uf with
    | none => none
    | some user_first =>
        some (mkPagewiseResult
          (page_sessions.filter (pagewiseOldCond user_first threshold)) (some user_first))
  else
    some (mkPagewiseResult page_sessions uf)

/-- Weekday names in Monday-to-Sunday order; day number 0 of the model
calendar falls on a Monday, so a date's weekday index is the date modulo 7. -/
def weekdayNames : List String :=
  ["Monday", "Tuesday", "Wednesday", "Thursday", "Friday", "Saturday", "Sunday"]

/-- Weekday index of a date (0 = Monday, ..., 6 = Sunday). -/
def weekdayIdx (d : Int) : Nat := (d % 7).toNat

/-- pd.date_range(a, b, freq=D): the consecutive dates from a to b
inclusive, empty when b < a. -/
def dateRange (a b : Int) : List Int :=
  (List.range (b - a + 1).toNat).map (fun (i : Nat) => a + (i : Int))

/-- Number of times the weekday with the given index occurs among the dates
of [a, b]: the weekday_occurrences / occ dictionary of the weekly traffic
branches (an absent key means this count is zero). -/
def weekdayOccurrences (a b : Int) (w : Nat) : Nat :=
  (dateRange a b).countP (fun d => weekdayIdx d = w)

/-- The weekly traffic series of update_pagewise (pagewise_analysis.py lines
360-375).  Net effect of the pandas pipeline: the groupby over weekday names
is reindexed over all seven names Monday..Sunday with fill_value 0, so the
output has exactly one row per weekday in Monday-to-Sunday order, whose
Sessions value is the number of page_sessions falling on that weekday and
whose AvgSessions value is Sessions / occ.get(name, 1), i.e. division by
the weekday's occurrence count with default divisor 1 when the weekday
never occurs in the window.  The branch runs only when the sessions frame
is nonempty; an empty frame yields the empty figure, modelled as none. -/
def pagewiseWeeklySeries (start_dt end_dt : Int) (page_sessions : List SessionRec) :
    Option (List (String × Rat)) :=
  if page_sessions.isEmpty then none
  else some ((List.range 7).map (fun w =>
    let cnt := page_sessions.countP (fun s => weekdayIdx (dateOf s.timestamp) = w)
    let occ := weekdayOccurrences (dateOf start_dt) (dateOf end_dt) w
    let denom : Nat := if occ = 0 then 1 else occ
    (weekdayNames.getD w "", (cnt : Rat) / (denom : Rat))))

/-- The weekly traffic series of update_overall (overall_analysis.py lines
252-266).  Net effect of the pandas pipeline: the groupby produces one row
per weekday that actually occurs among filtered_sessions (no reindexing, so
weekdays with zero sessions are absent), AvgSessions divides by
weekday_occurrences.get(name, 1), and the categorical sort orders the
present weekdays Monday to Sunday.  The branch runs only when
filtered_sessions is nonempty; otherwise the figure is empty (none). -/
def overallWeeklySeries (start_dt end_dt : Int) (filtered_sessions : List SessionRec) :
    Option (List (String × Rat)) :=
  if filtered_sessions.isEmpty then none
  else some ((List.range 7).filterMap (fun w =>
    let cnt := filtered_sessions.countP (fun s => weekdayIdx (dateOf s.timestamp) = w)
    if cnt = 0 then none
    else
      let occ := weekdayOccurrences (dateOf start_dt) (dateOf end_dt) w
      let denom : Nat := if occ = 0 then 1 else occ
      some (weekdayNames.getD w "", (cnt : Rat) / (denom : Rat))))

/-- Round a rational to the nearest integer with ties to even, the rounding
mode of Python round() (binary floating-point representation effects are
not modelled). -/
def roundHalfEvenInt (q : Rat) : Int :=
  let f := Int.floor q
  if q - (f : Rat) < 1/2 then f
  else if (1 : Rat)/2 < q - (f : Rat) then f + 1
  else if f % 2 = 0 then f else f + 1

/-- round(x, 2): rounding to two decimal places, ties to even. -/
def roundHalfEven2 (q : Rat) : Rat := ((roundHalfEvenInt (q * 100) : Int) : Rat) / 100

/-- The bounce-rate computation of update_pagewise (pagewise_analysis.py
lines 285-288): exits counts the page_sessions equal to page_sessions[-1]
(the dummy-data records are SimpleNamespace objects, whose == compares all
attributes by value), and bounce_rate = round(exits / total_visits * 100, 2)
with both exits and bounce_rate defined as 0 when the list is empty. -/
def bounce_rate (page_sessions : List SessionRec) : Rat :=
  match page_sessions.getLast? with
  | none => 0
  | some lastS =>
      let exits := page_sessions.countP (fun s => s = lastS)
      roundHalfEven2 ((exits : Rat) / (page_sessions.length : Rat) * 100)

/-- The page pool sampled by random.choice in build_sankey_figure. -/
def pagePool : List String :=
  ["Home", "Explore", "Post", "My Network", "Notifications", "Profile",
   "Settings", "About", "Contact"]

/-- State of the process-global random generator used by the random module:
an abstract predetermined draw stream (the generator's output sequence)
together with the position of the next draw.  Each random.choice consumes
one draw.  build_sankey_figure takes no seed parameter in the source; its
randomness comes entirely from this ambient state, which advances across
calls. -/
structure RandState where
  seq : Nat → Nat
  pos : Nat

/-- random.choice(pagePool): consume one draw and index the pool with it
modulo the pool size. -/
def randChoice (g : RandState) : String × RandState :=
  (pagePool.getD (g.seq g.pos % pagePool.length) "", ⟨g.seq, g.pos + 1⟩)

/-- The loop appending k random page choices (for _ in range(n_pages - 1)). -/
def drawPages (g : RandState) : Nat → List String × RandState
  | 0 => ([], g)
  | k + 1 =>
    let (p, g1) := randChoice g
    let (ps, g2) := drawPages g1 k
    (p :: ps, g2)

/-- The pages chain built for one session: its referral_source followed by
n_pages - 1 random draws. -/
def sessionPages (g : RandState) (s : SessionRec) (n_pages : Nat) :
    List String × RandState :=
  let (ps, g1) := drawPages g (n_pages - 1)
  (s.referral_source :: ps, g1)

/-- Consecutive pairs (pages[i], pages[i+1]) of a chain. -/
def chainPairs : List String → List (String × String)
  | a :: b :: rest => (a, b) :: chainPairs (b :: rest)
  | _ => []

/-- user_paths of build_sankey_figure: for each session in order, the
consecutive pairs of its pages chain, concatenated (the Python double loop
appends exactly these pairs in this order). -/
def userPaths (g : RandState) (n_pages : Nat) :
    List SessionRec → List (String × String) × RandState
  | [] => ([], g)
  | s :: rest =>
    let (pages, g1) := sessionPages g s n_pages
    let (more, g2) := userPaths g1 n_pages rest
    (chainPairs pages ++ more, g2)

/-- Both endpoints of every pair, in order: the flattening
[p for pair in pair_counts for p in pair]. -/
def endpointsOf : List (String × String) → List String
  | [] => []
  | p :: rest => p.1 :: p.2 :: endpointsOf rest

/-- The data of the Sankey figure: node labels, the aggregated edge list
(source, target) to count, and the index-translated link arrays actually
stored by go.Sankey (sources/targets are the link keys translated through
the position of each label in labels; values are the counts). -/
structure SankeyData where
  labels : List String
  links : List ((String × String) × Nat)
  sources : List Nat
  targets : List Nat
  values : List Nat
deriving DecidableEq, Repr

/-- The figure data built from a nonempty user_paths list: pair_counts =
Counter(user_paths); labels = sorted(set(all endpoints of its keys));
sources/targets = the link keys translated to their positions in labels;
values = the counts. -/
def sankeyOf (user_paths : List (String × String)) : SankeyData :=
  let pair_counts := counter user_paths
  let labels :=
    List.insertionSort byStrAsc (endpointsOf (pair_counts.map (fun pc => pc.1))).dedup
  { labels := labels
    links := pair_counts
    sources := pair_counts.map (fun pc => labels.indexOf pc.1.1)
    targets := pair_counts.map (fun pc => labels.indexOf pc.1.2)
    values := pair_counts.map (fun pc => pc.2) }

/-- build_sankey_figure (pagewise_analysis.py lines 97-124), returning the
figure together with the advanced global RNG state.  none models the
explicit empty figure {} returned when user_paths is empty. -/
def build_sankey_figure (g : RandState) (page_sessions : List SessionRec)
    (n_pages : Nat) : Option SankeyData × RandState :=
  let user_paths := (userPaths g n_pages page_sessions).1
  let g' := (userPaths g n_pages page_sessions).2
  if user_paths.isEmpty then (none, g')
  else (some (sankeyOf user_paths), g')

/-! ### Association-list counter lemmas -/

theorem bump_sum {α : Type} [DecidableEq α] (k : α) (m : List (α × Nat)) :
    ((bump k m).map (fun p => p.2)).sum = ((m.map (fun p => p.2)).sum) + 1 := by
  induction m with
  | nil => simp [bump]
  | cons hd tl ih =>
      obtain ⟨k', n⟩ := hd
      by_cases h : k' = k
      · simp [bump, h]
        omega
      · simp [bump, h, ih]
        omega

theorem counter_sum_aux {α : Type} [DecidableEq α] (l : List α) :
    ∀ m : List (α × Nat),
      ((List.foldl (fun acc x => bump x acc) m l).map (fun p => p.2)).sum =
        ((m.map (fun p => p.2)).sum) + l.length := by
  induction l with
  | nil => intro m; simp
  | cons hd tl ih =>
      intro m
      simp only [List.foldl_cons, List.length_cons]
      rw [ih (bump hd m), bump_sum]
      omega

/-- The counts recorded by a counter sum to the length of the counted list. -/
theorem counter_sum {α : Type} [DecidableEq α] (l : List α) :
    ((counter l).map (fun p => p.2)).sum = l.length := by
  simpa using counter_sum_aux l []

theorem bump_lookup_self {α : Type} [DecidableEq α] (k : α) (m : List (α × Nat)) :
    (bump k m).lookup k = some (((m.lookup k).getD 0) + 1) := by
  induction m with
  | nil => simp [bump, List.lookup]
  | cons hd tl ih =>
      obtain ⟨k', n⟩ := hd
      by_cases h : k' = k
      · subst h
        simp [bump, List.lookup]
      · have hb : (k == k') = false := beq_eq_false_iff_ne.mpr (Ne.symm h)
        simp [bump, h, List.lookup, hb, ih]

theorem bump_lookup_other {α : Type} [DecidableEq α] {k k' : α} (h : k' ≠ k)
    (m : List (α × Nat)) : (bump k m).lookup k' = m.lookup k' := by
  have hb : (k' == k) = false := beq_eq_false_iff_ne.mpr h
  induction m with
  | nil => simp [bump, List.lookup, hb]
  | cons hd tl ih =>
      obtain ⟨k0, n⟩ := hd
      by_cases h0 : k0 = k
      · subst h0
        simp [bump, List.lookup, hb]
      · simp [bump, h0, List.lookup, ih]

/-- The count a counter dict stores for a key, 0 when the key is absent. -/
def cntOf {α : Type} [DecidableEq α] (m : List (α × Nat)) (k : α) : Nat :=
  (m.lookup k).getD 0

theorem cntOf_bump_self {α : Type} [DecidableEq α] (k : α) (m : List (α × Nat)) :
    cntOf (bump k m) k = cntOf m k + 1 := by
  simp [cntOf, bump_lookup_self]

theorem cntOf_bump_other {α : Type} [DecidableEq α] {k k' : α} (h : k' ≠ k)
    (m : List (α × Nat)) : cntOf (bump k m) k' = cntOf m k' := by
  simp [cntOf, bump_lookup_other h]

theorem cntOf_foldl {α : Type} [DecidableEq α] (l : List α) :
    ∀ (m : List (α × Nat)) (k : α),
      cntOf (List.foldl (fun acc x => bump x acc) m l) k = cntOf m k + l.count k := by
  induction l with
  | nil => intro m k; simp
  | cons hd tl ih =>
      intro m k
      simp only [List.foldl_cons]
      rw [ih (bump hd m) k]
      by_cases hk : hd = k
      · subst hk
        rw [cntOf_bump_self]
        simp [List.count_cons]
        omega
      · rw [cntOf_bump_other (Ne.symm hk)]
        have hb : (k == hd) = false := beq_eq_false_iff_ne.mpr (Ne.symm hk)
        simp [List.count_cons, hb]
        exact hk

theorem isSome_lookup_foldl {α : Type} [DecidableEq α] (l : List α) :
    ∀ (m : List (α × Nat)) (k : α),
      ((List.foldl (fun acc x => bump x acc) m l).lookup k).isSome =
        ((m.lookup k).isSome || decide (k ∈ l)) := by
  induction l with
  | nil => intro m k; simp
  | cons hd tl ih =>
      intro m k
      simp only [List.foldl_cons]
      rw [ih (bump hd m) k]
      by_cases hk : hd = k
      · subst hk
        simp [bump_lookup_self]
      · rw [bump_lookup_other (Ne.symm hk)]
        simp [hk, Ne.symm hk]

theorem mem_keys_bump {α : Type} [DecidableEq α] (k x : α) (m : List (α × Nat)) :
    x ∈ (bump k m).map Prod.fst ↔ x ∈ m.map Prod.fst ∨ x = k := by
  induction m with
  | nil => simp [bump]
  | cons hd tl ih =>
      obtain ⟨k0, n⟩ := hd
      by_cases h : k0 = k
      · subst h
        simp [bump]
        tauto
      · simp [bump, h, ih]
        tauto

theorem nodupkeys_bump {α : Type} [DecidableEq α] (k : α) (m : List (α × Nat))
    (h : (m.map Prod.fst).Nodup) : ((bump k m).map Prod.fst).Nodup := by
  induction m with
  | nil => simp [bump]
  | cons hd tl ih =>
      obtain ⟨k0, n⟩ := hd
      simp only [List.map_cons, List.nodup_cons] at h
      by_cases h0 : k0 = k
      · subst h0
        simp only [bump, List.map_cons]
        simp only [if_true]
        simp only [List.map_cons, List.nodup_cons]
        exact h
      · simp only [bump, if_neg h0, List.map_cons, List.nodup_cons]
        constructor
        · rw [mem_keys_bump]
          rintro (hin | hkk)
          · exact h.1 hin
          · exact h0 hkk
        · exact ih h.2

theorem nodupkeys_counter_aux {α : Type} [DecidableEq α] (l : List α) :
    ∀ m : List (α × Nat), (m.map Prod.fst).Nodup →
      ((List.foldl (fun acc x => bump x acc) m l).map Prod.fst).Nodup := by
  induction l with
  | nil => intro m h; simpa using h
  | cons hd tl ih =>
      intro m h
      simp only [List.foldl_cons]
      exact ih (bump hd m) (nodupkeys_bump hd m h)

/-- A counter dict has pairwise-distinct keys. -/
theorem nodupkeys_counter {α : Type} [DecidableEq α] (l : List α) :
    ((counter l).map Prod.fst).Nodup :=
  nodupkeys_counter_aux l [] (by simp)

theorem lookup_eq_some_of_nodupkeys {α : Type} [DecidableEq α]
    (m : List (α × Nat)) (h : (m.map Prod.fst).Nodup) (k : α) (n : Nat) :
    (k, n) ∈ m ↔ m.lookup k = some n := by
  induction m with
  | nil => simp
  | cons hd tl ih =>
      obtain ⟨k0, n0⟩ := hd
      simp only [List.map_cons, List.nodup_cons] at h
      by_cases hk : k = k0
      · subst hk
        have : ∀ j, (k, j) ∈ tl → False := by
          intro j hj
          exact h.1 (List.mem_map.mpr ⟨(k, j), hj, rfl⟩)
        simp only [List.mem_cons, List.lookup, beq_self_eq_true]
        constructor
        · rintro (heq | hin)
          · simp at heq
            simp [heq]
          · exact absurd hin (this n)
        · intro hsome
          simp at hsome
          simp [hsome]
      · have hb : (k == k0) = false := beq_eq_false_iff_ne.mpr hk
        simp only [List.mem_cons, List.lookup, hb]
        rw [← ih h.2]
        constructor
        · rintro (heq | hin)
          · exact absurd (congrArg Prod.fst heq) hk
          · exact hin
        · intro hin
          exact Or.inr hin

/-- Lookup in a counter: present iff the element occurs, with its
occurrence count. -/
theorem counter_lookup {α : Type} [DecidableEq α] (l : List α) (k : α) :
    (counter l).lookup k = if k ∈ l then some (l.count k) else none := by
  have hsome : ((counter l).lookup k).isSome = decide (k ∈ l) := by
    simpa using isSome_lookup_foldl l [] k
  have hcnt : cntOf (counter l) k = l.count k := by
    simpa [cntOf] using cntOf_foldl l [] k
  by_cases hmem : k ∈ l
  · simp only [if_pos hmem]
    cases hlk : (counter l).lookup k with
    | none => rw [hlk] at hsome; simp [hmem] at hsome
    | some v =>
        have hv : v = l.count k := by simpa [cntOf, hlk] using hcnt
        simp [hv]
  · simp only [if_neg hmem]
    cases hlk : (counter l).lookup k with
    | none => rfl
    | some v => rw [hlk] at hsome; simp [hmem] at hsome

/-- Membership in a counter dict: exactly the occurring elements paired with
their occurrence counts. -/
theorem mem_counter {α : Type} [DecidableEq α] (l : List α) (k : α) (n : Nat) :
    (k, n) ∈ counter l ↔ (k ∈ l ∧ n = l.count k) := by
  rw [lookup_eq_some_of_nodupkeys (counter l) (nodupkeys_counter l) k n, counter_lookup]
  by_cases hmem : k ∈ l
  · simp [hmem, eq_comm]
  · simp [hmem]

/-! ### Stability of the sorts (Python sorted keeps tied elements in their
original order; List.insertionSort inserts an earlier element before any
tied later element, which gives the same guarantee).  The fiber of every
Boolean predicate implied by ties is preserved verbatim. -/

theorem filter_orderedInsert_not {α : Type} (r : α → α → Prop) [DecidableRel r]
    (p : α → Bool) (x : α) (hx : p x = false) (l : List α) :
    (List.orderedInsert r x l).filter p = l.filter p := by
  induction l with
  | nil => simp [hx]
  | cons y ys ih =>
      by_cases hr : r x y
      · simp [List.orderedInsert, hr, hx]
      · simp only [List.orderedInsert, if_neg hr, List.filter_cons]
        cases hpy : p y <;> simp [hpy, ih]

theorem filter_orderedInsert_tie {α : Type} (r : α → α → Prop) [DecidableRel r]
    (p : α → Bool) (x : α) (hx : p x = true) (l : List α)
    (hins : ∀ y ∈ l, p y = true → r x y) :
    (List.orderedInsert r x l).filter p = x :: l.filter p := by
  induction l with
  | nil => simp [hx]
  | cons y ys ih =>
      by_cases hr : r x y
      · simp [List.orderedInsert, hr, hx]
      · have hpy : p y = false := by
          cases hpy : p y
          · rfl
          · exact absurd (hins y (by simp) hpy) hr
        simp only [List.orderedInsert, if_neg hr, List.filter_cons, hpy]
        simp only [Bool.false_eq_true, if_false]
        exact ih (fun z hz hpz => hins z (by simp [hz]) hpz)

/-- Stability of the modelled sort: a stable sort leaves the subsequence of
any tie-class untouched, so filtering by a predicate that forces ties
commutes with sorting. -/
theorem filter_insertionSort_eq_filter {α : Type} (r : α → α → Prop) [DecidableRel r]
    (p : α → Bool) (htie : ∀ a b, p a = true → p b = true → r a b) (l : List α) :
    (List.insertionSort r l).filter p = l.filter p := by
  induction l with
  | nil => simp
  | cons x xs ih =>
      simp only [List.insertionSort]
      cases hx : p x
      · rw [filter_orderedInsert_not r p x hx, ih, List.filter_cons, hx]
        simp
      · rw [filter_orderedInsert_tie r p x hx _
          (fun y hy hpy => htie x y hx hpy), ih, List.filter_cons, hx]
        simp

instance : IsTotal (String × Nat) byCountDesc :=
  ⟨fun a b => Nat.le_total b.2 a.2⟩

instance : IsTrans (String × Nat) byCountDesc :=
  ⟨fun _ _ _ hab hbc => Nat.le_trans hbc hab⟩

instance : IsTotal (String × Nat) byCountAsc :=
  ⟨fun a b => Nat.le_total a.2 b.2⟩

instance : IsTrans (String × Nat) byCountAsc :=
  ⟨fun _ _ _ hab hbc => Nat.le_trans hab hbc⟩

theorem charListLe_total : ∀ a b : List Char, charListLe a b = true ∨ charListLe b a = true := by
  intro a
  induction a with
  | nil => intro b; left; rfl
  | cons c cs ih =>
      intro b
      cases b with
      | nil => right; rfl
      | cons d ds =>
          by_cases h1 : c.toNat < d.toNat
          · left; simp [charListLe, h1]
          · by_cases h2 : d.toNat < c.toNat
            · right; simp [charListLe, h2]
            · rcases ih ds with h | h
              · left; simp [charListLe, h1, h2, h]
              · right; simp [charListLe, h1, h2, h]

theorem charListLe_trans : ∀ a b c : List Char,
    charListLe a b = true → charListLe b c = true → charListLe a c = true := by
  intro a
  induction a with
  | nil => intro b c _ _; rfl
  | cons x xs ih =>
      intro b c hab hbc
      cases b with
      | nil => simp [charListLe] at hab
      | cons y ys =>
          cases c with
          | nil => simp [charListLe] at hbc
          | cons z zs =>
              simp only [charListLe] at hab hbc ⊢
              by_cases hxy : x.toNat < y.toNat
              · by_cases hyz : y.toNat < z.toNat
                · simp [Nat.lt_trans hxy hyz]
                · by_cases hzy : z.toNat < y.toNat
                  · simp [hyz, hzy] at hbc
                  · have : y.toNat = z.toNat := Nat.le_antisymm (Nat.le_of_not_lt hzy) (Nat.le_of_not_lt hyz)
                    simp [this ▸ hxy]
              · by_cases hyx : y.toNat < x.toNat
                · simp [hxy, hyx] at hab
                · have hxyeq : x.toNat = y.toNat := Nat.le_antisymm (Nat.le_of_not_lt hyx) (Nat.le_of_not_lt hxy)
                  simp only [hxy, if_false, hyx] at hab
                  by_cases hyz : y.toNat < z.toNat
                  · simp [hxyeq ▸ hyz]
                  · by_cases hzy : z.toNat < y.toNat
                    · simp [hyz, hzy] at hbc
                    · have hyzeq : y.toNat = z.toNat := Nat.le_antisymm (Nat.le_of_not_lt hzy) (Nat.le_of_not_lt hyz)
                      have hxz : ¬ x.toNat < z.toNat := by omega
                      have hzx : ¬ z.toNat < x.toNat := by omega
                      simp only [hxz, if_false, hzx]
                      simp only [hyz, hzy, if_false] at hbc
                      simp [ih ys zs hab hbc]

instance : IsTotal String byStrAsc :=
  ⟨fun a b => charListLe_total a.data b.data⟩

instance : IsTrans String byStrAsc :=
  ⟨fun a b c hab hbc => charListLe_trans a.data b.data c.data hab hbc⟩

instance : IsTotal (Int × Nat) byDateAsc :=
  ⟨fun a b => Int.le_total a.1 b.1⟩

instance : IsTrans (Int × Nat) byDateAsc :=
  ⟨fun _ _ _ hab hbc => le_trans hab hbc⟩

/-! ### Characterization of the four cohort-filter conditions -/

theorem overallNewCond_true_iff (uf : List (String × Int)) (thr : Int) (s : SessionRec) :
    overallNewCond uf thr s = true ↔
      (uf.lookup s.user_id = none ∨ ∃ t, uf.lookup s.user_id = some t ∧ thr ≤ t) := by
  cases h : uf.lookup s.user_id <;> simp [overallNewCond, h]

theorem overallOldCond_true_iff (uf : List (String × Int)) (thr : Int) (s : SessionRec) :
    overallOldCond uf thr s = true ↔
      (uf.lookup s.user_id = none ∨ ∃ t, uf.lookup s.user_id = some t ∧ t < thr) := by
  cases h : uf.lookup s.user_id <;> simp [overallOldCond, h]

theorem pagewiseNewCond_true_iff (uf : List (String × Int)) (thr : Int) (s : SessionRec) :
    pagewiseNewCond uf thr s = true ↔
      (∃ t, uf.lookup s.user_id = some t ∧ thr ≤ t) := by
  cases h : uf.lookup s.user_id <;> simp [pagewiseNewCond, h]

theorem pagewiseOldCond_true_iff (uf : List (String × Int)) (thr : Int) (s : SessionRec) :
    pagewiseOldCond uf thr s = true ↔
      (∃ t, uf.lookup s.user_id = some t ∧ t < thr) := by
  cases h : uf.lookup s.user_id <;> simp [pagewiseOldCond, h]

/-- Concrete session constructor shared by the concrete instantiations
below (session_time, user_agent and feedback are irrelevant to the claims
and fixed to defaults). -/
def mkSession (uid : String) (ts : Int) (pg ref : String) : SessionRec :=
  { user_id := uid, timestamp := ts, page := pg, referral_source := ref,
    session_time := 0, user_agent := "", feedback := "" }

/-- C1 (amended): whenever the overall aggregation succeeds, the reported
cohort split satisfies new_users + old_users = distinct_users, where
distinct_users is the reported distinct-user count, i.e. the number of
session users known to the cohort source (len(user_first)) — which can be
strictly smaller than the number of distinct user_ids occurring in the
session set when some user has no known first login (see the
counterexample).  This holds for every user filter. -/
theorem C1_new_plus_old_eq_reported_distinct
    (sessions : List SessionRec) (db : Option (List (String × Int)))
    (fakeUsers : List (String × Int)) (end_dt : Int) (user_filter : String)
    (thr : Int) (user_first : List (String × Int))
    (h : fetch_users ((sessions.map (fun s => s.user_id)).dedup) db fakeUsers =
      some user_first) :
    (aggregate_overall sessions db fakeUsers end_dt user_filter thr).elim False
      (fun r => r.new_users + r.old_users = r.distinct_users ∧
        r.distinct_users = user_first.length) := by
  simp only [aggregate_overall, h, Option.elim]
  exact ⟨Nat.add_sub_cancel' (List.countP_le_length _), trivial⟩

/-- C1 witness: a concrete session set with one known user. -/
theorem C1_witness :
    fetch_users (([mkSession "u1" 0 "Home" "Google"].map (fun s => s.user_id)).dedup)
        none [("u1", 10)] = some [("u1", 10)]
    ∧ (aggregate_overall [mkSession "u1" 0 "Home" "Google"] none [("u1", 10)] 0 "All" 14).elim
        False
        (fun r => r.new_users + r.old_users = r.distinct_users ∧
          r.distinct_users = [(("u1" : String), (10 : Int))].length) :=
  ⟨by decide,
   C1_new_plus_old_eq_reported_distinct
     [mkSession "u1" 0 "Home" "Google"] none [("u1", 10)] 0 "All" 14 [("u1", 10)]
     (by decide)⟩

/-- C1 counterexample: one session by the user "ghost", who is unknown to
the cohort source (the fallback FAKE_USERS dict only knows "u1").  The
aggregation reports new_users + old_users = 0 and distinct_users = 0, while
the number of distinct user_ids occurring in the session set is 1, so the
claimed identity with the distinct user_ids of S fails. -/
theorem C1_counterexample :
    (aggregate_overall [mkSession "ghost" 0 "Home" "Google"] none [("u1", 10)] 0 "All" 14).map
        (fun r => (r.new_users + r.old_users, r.distinct_users)) = some (0, 0)
    ∧ (([mkSession "ghost" 0 "Home" "Google"].map (fun s => s.user_id)).dedup).length = 1
    ∧ (0 : Nat) ≠ 1 := by
  refine ⟨by decide, by decide, by decide⟩

/-- C2 (amended): the cohort filters never fail and classify by the
threshold comparison first_seen ≥ threshold → New and first_seen <
threshold → Old (the boundary first_seen = threshold is New), but the two
modules disagree on users with no known first_seen: aggregate_overall
defaults a missing first_seen to datetime.max in its New branch and to
datetime.min in its Old branch, so sessions of unknown users are included
in both the New- and the Old-filtered subsets, while aggregate_pagewise
uses the opposite defaults and excludes them from both. -/
theorem C2_cohort_classification
    (sessions : List SessionRec) (db : Option (List (String × Int)))
    (fakeUsers : List (String × Int)) (end_dt thr : Int)
    (user_first : List (String × Int))
    (h : fetch_users ((sessions.map (fun s => s.user_id)).dedup) db fakeUsers =
      some user_first) :
    ((aggregate_overall sessions db fakeUsers end_dt "New" thr).elim False (fun r =>
        ∀ s, s ∈ r.filtered_sessions ↔ (s ∈ sessions ∧
          (user_first.lookup s.user_id = none ∨
            ∃ t, user_first.lookup s.user_id = some t ∧ end_dt - thr * secondsPerDay ≤ t))))
    ∧ ((aggregate_overall sessions db fakeUsers end_dt "Old" thr).elim False (fun r =>
        ∀ s, s ∈ r.filtered_sessions ↔ (s ∈ sessions ∧
          (user_first.lookup s.user_id = none ∨
            ∃ t, user_first.lookup s.user_id = some t ∧ t < end_dt - thr * secondsPerDay))))
    ∧ (∀ page r uf, aggregate_pagewise sessions page db fakeUsers end_dt "New" thr = some r →
        r.user_first = some uf →
        ∀ s, s ∈ r.page_sessions ↔ (s ∈ sessions ∧ s.page = page ∧
          ∃ t, uf.lookup s.user_id = some t ∧ end_dt - thr * secondsPerDay ≤ t))
    ∧ (∀ page r uf, aggregate_pagewise sessions page db fakeUsers end_dt "Old" thr = some r →
        r.user_first = some uf →
        ∀ s, s ∈ r.page_sessions ↔ (s ∈ sessions ∧ s.page = page ∧
          ∃ t, uf.lookup s.user_id = some t ∧ t < end_dt - thr * secondsPerDay)) := by
  refine ⟨?_, ?_, ?_, ?_⟩
  · simp only [aggregate_overall, h, Option.elim]
    intro s
    simp [List.mem_filter, overallNewCond_true_iff]
  · simp only [aggregate_overall, h, Option.elim]
    intro s
    simp [List.mem_filter, overallOldCond_true_iff]
  · intro page r uf hagg huf s
    cases hf : fetch_users
        (((sessions.filter (fun s => s.page = page)).map (fun s => s.user_id)).dedup)
        db fakeUsers with
    | none => simp [aggregate_pagewise, hf] at hagg
    | some uf0 =>
        simp only [aggregate_pagewise, hf] at hagg
        simp only [if_true, Option.some_inj] at hagg
        subst hagg
        simp only [mkPagewiseResult, Option.some_inj] at huf
        subst huf
        simp only [mkPagewiseResult, List.mem_filter, Bool.and_eq_true, decide_eq_true_eq,
          pagewiseNewCond_true_iff]
        tauto
  · intro page r uf hagg huf s
    cases hf : fetch_users
        (((sessions.filter (fun s => s.page = page)).map (fun s => s.user_id)).dedup)
        db fakeUsers with
    | none => simp [aggregate_pagewise, hf] at hagg
    | some uf0 =>
        simp only [aggregate_pagewise, hf] at hagg
        rw [if_neg (by decide : ¬("Old" : String) = "New")] at hagg
        simp only [if_true, Option.some_inj] at hagg
        subst hagg
        simp only [mkPagewiseResult, Option.some_inj] at huf
        subst huf
        simp only [mkPagewiseResult, List.mem_filter, Bool.and_eq_true, decide_eq_true_eq,
          pagewiseOldCond_true_iff]
        tauto

/-- C2 witness: a boundary user (first login exactly at the threshold), an
old user and an unknown user, with end_dt = 14 days so the threshold is 0:
the boundary user and the unknown user are both in the New-filtered subset
of the overall aggregation. -/
theorem C2_witness :
    fetch_users
        (([mkSession "b" 5 "Home" "Direct", mkSession "o" 5 "Home" "Direct",
           mkSession "ghost" 5 "Home" "Direct"].map (fun s => s.user_id)).dedup)
        none [("b", 0), ("o", -1)] = some [("b", 0), ("o", -1)]
    ∧ ((aggregate_overall [mkSession "b" 5 "Home" "Direct", mkSession "o" 5 "Home" "Direct",
           mkSession "ghost" 5 "Home" "Direct"] none [("b", 0), ("o", -1)]
           (14 * secondsPerDay) "New" 14).elim False (fun r =>
          ∀ s, s ∈ r.filtered_sessions ↔
            (s ∈ [mkSession "b" 5 "Home" "Direct", mkSession "o" 5 "Home" "Direct",
                  mkSession "ghost" 5 "Home" "Direct"] ∧
              ([(("b" : String), (0 : Int)), ("o", -1)].lookup s.user_id = none ∨
                ∃ t, [(("b" : String), (0 : Int)), ("o", -1)].lookup s.user_id = some t ∧
                  14 * secondsPerDay - 14 * secondsPerDay ≤ t)))) :=
  ⟨by decide,
   (C2_cohort_classification
     [mkSession "b" 5 "Home" "Direct", mkSession "o" 5 "Home" "Direct",
      mkSession "ghost" 5 "Home" "Direct"] none [("b", 0), ("o", -1)]
     (14 * secondsPerDay) 14 [("b", 0), ("o", -1)] (by decide)).1⟩

/-- C2 counterexample: a session whose user is unknown to the cohort source
is returned in the New-filtered subset AND in the Old-filtered subset of
the overall aggregation, while the claim says it belongs to neither. -/
theorem C2_counterexample :
    (aggregate_overall [mkSession "ghost" 0 "Home" "Direct"] none [("u1", 999)] 0 "New" 14).map
        (fun r => r.filtered_sessions) = some [mkSession "ghost" 0 "Home" "Direct"]
    ∧ (aggregate_overall [mkSession "ghost" 0 "Home" "Direct"] none [("u1", 999)] 0 "Old" 14).map
        (fun r => r.filtered_sessions) = some [mkSession "ghost" 0 "Home" "Direct"]
    ∧ ([mkSession "ghost" 0 "Home" "Direct"] : List SessionRec) ≠ [] := by
  refine ⟨by decide, by decide, by decide⟩

/-- C7: empty-input behaviour of the overall aggregation at the failing
input.  On the database-backed user-fetch path (db reachable), fetch_users
falls off the end of its try block and returns Python None, because the
query over the empty user_id set matches no rows and the nonempty guard
fails; aggregate_overall then faults on user_first.values() — the none
result — for every user filter.  On the fallback user-fetch path the same
empty input produces the well-formed zero-valued result that the claim
demands. -/
theorem C7_empty_input :
    aggregate_overall [] (some [("u1", 0)]) [] 0 "All" 14 = none
    ∧ aggregate_overall [] (some [("u1", 0)]) [] 0 "New" 14 = none
    ∧ aggregate_overall [] (some [("u1", 0)]) [] 0 "Old" 14 = none
    ∧ aggregate_overall [] none [("u1", 0)] 0 "All" 14 =
        some { total_records := 0, distinct_users := 0, new_users := 0, old_users := 0,
               top_pages := [], bottom_pages := [], traffic_df := [],
               filtered_sessions := [], source_distribution := [] } := by
  refine ⟨by decide, by decide, by decide, by decide⟩

/-- C10: the per-page aggregation returns only sessions whose page equals
the requested page, and total_sessions equals the length of the returned
list — for every session list, page, cohort source, window end and user
filter for which the aggregation returns at all. -/
theorem C10_page_subset
    (sessions : List SessionRec) (page : String) (db : Option (List (String × Int)))
    (fakeUsers : List (String × Int)) (end_dt : Int) (user_filter : String)
    (thr : Int) (r : PagewiseResult)
    (h : aggregate_pagewise sessions page db fakeUsers end_dt user_filter thr = some r) :
    (∀ s ∈ r.page_sessions, s.page = page) ∧
      r.total_sessions = r.page_sessions.length := by
  have hbase : ∀ s ∈ sessions.filter (fun s => s.page = page), s.page = page := by
    intro s hs
    simpa using (List.mem_filter.mp hs).2
  have hbase2 : ∀ (cond : SessionRec → Bool),
      ∀ s ∈ (sessions.filter (fun s => s.page = page)).filter cond, s.page = page := by
    intro cond s hs
    exact hbase s (List.mem_filter.mp hs).1
  simp only [aggregate_pagewise] at h
  by_cases hN : user_filter = "New"
  · rw [if_pos hN] at h
    cases hf : fetch_users
        (((sessions.filter (fun s => s.page = page)).map (fun s => s.user_id)).dedup)
        db fakeUsers with
    | none => rw [hf] at h; cases h
    | some uf0 =>
        rw [hf] at h
        simp only [Option.some_inj] at h
        subst h
        exact ⟨hbase2 _, rfl⟩
  · rw [if_neg hN] at h
    by_cases hO : user_filter = "Old"
    · rw [if_pos hO] at h
      cases hf : fetch_users
          (((sessions.filter (fun s => s.page = page)).map (fun s => s.user_id)).dedup)
          db fakeUsers with
      | none => rw [hf] at h; cases h
      | some uf0 =>
          rw [hf] at h
          simp only [Option.some_inj] at h
          subst h
          exact ⟨hbase2 _, rfl⟩
    · rw [if_neg hO] at h
      simp only [Option.some_inj] at h
      subst h
      exact ⟨hbase, rfl⟩

/-- C10 witness: two sessions on pages A and B, requesting page A. -/
theorem C10_witness :
    aggregate_pagewise [mkSession "u" 0 "A" "Direct", mkSession "u" 0 "B" "Direct"]
        "A" none [("u", 3)] 0 "All" 14 =
      some (mkPagewiseResult [mkSession "u" 0 "A" "Direct"] (some [("u", 3)]))
    ∧ ((∀ s ∈ (mkPagewiseResult [mkSession "u" 0 "A" "Direct"]
          (some [(("u" : String), (3 : Int))])).page_sessions, s.page = "A")
       ∧ (mkPagewiseResult [mkSession "u" 0 "A" "Direct"]
            (some [(("u" : String), (3 : Int))])).total_sessions =
          (mkPagewiseResult [mkSession "u" 0 "A" "Direct"]
            (some [(("u" : String), (3 : Int))])).page_sessions.length) :=
  ⟨by decide,
   C10_page_subset [mkSession "u" 0 "A" "Direct", mkSession "u" 0 "B" "Direct"] "A"
     none [("u", 3)] 0 "All" 14
     (mkPagewiseResult [mkSession "u" 0 "A" "Direct"] (some [("u", 3)])) (by decide)⟩

/-- C4 (amended): the referral-source distribution of the overall
aggregation is computed over the cohort-unfiltered session set, so it —
together with total_records, distinct_users, new_users and old_users — is
identical for every user_filter value, and its counts sum to the full
window session count.  The filtered session subset, and the quantities the
function derives from it (per-date traffic series, top/bottom page
rankings), do vary with the filter (see the counterexample), so invariance
holds exactly for the components listed here. -/
theorem C4_filter_independent_frame
    (sessions : List SessionRec) (db : Option (List (String × Int)))
    (fakeUsers : List (String × Int)) (end_dt thr : Int) (f1 f2 : String) :
    ((aggregate_overall sessions db fakeUsers end_dt f1 thr).map
        (fun r => (r.total_records, r.distinct_users, r.new_users, r.old_users,
          r.source_distribution)) =
      (aggregate_overall sessions db fakeUsers end_dt f2 thr).map
        (fun r => (r.total_records, r.distinct_users, r.new_users, r.old_users,
          r.source_distribution)))
    ∧ ((aggregate_overall sessions db fakeUsers end_dt f1 thr).elim True
        (fun r => (r.source_distribution.map (fun p => p.2)).sum = r.total_records)) := by
  cases hf : fetch_users ((sessions.map (fun s => s.user_id)).dedup) db fakeUsers with
  | none => simp [aggregate_overall, hf]
  | some user_first =>
      constructor
      · simp [aggregate_overall, hf]
      · simp only [aggregate_overall, hf, Option.elim]
        rw [counter_sum]
        simp

/-- C4 counterexample: with one New and one Old user visiting different
pages, the top_pages component differs between the New-filtered and the
Old-filtered aggregation of the same session set, refuting the part of the
claim that only the returned filtered session subset varies with the user
filter. -/
theorem C4_counterexample :
    (aggregate_overall [mkSession "n" 5 "A" "Google", mkSession "o" 5 "B" "Google"]
        none [("n", 0), ("o", -1)] (14 * secondsPerDay) "New" 14).map
        (fun r => r.top_pages) = some [("A", 1)]
    ∧ (aggregate_overall [mkSession "n" 5 "A" "Google", mkSession "o" 5 "B" "Google"]
        none [("n", 0), ("o", -1)] (14 * secondsPerDay) "Old" 14).map
        (fun r => r.top_pages) = some [("B", 1)]
    ∧ ([(("A" : String), (1 : Nat))] ≠ [("B", 1)]) := by
  refine ⟨by decide, by decide, by decide⟩

/-- Comparison following the specification text for page rankings
(section 4.4): highest count first, ties broken by page name ascending
lexicographically.  Defined only to contrast the specified tie-break with
the implemented one; the source has no such comparison. -/
def byCountDescLex (a b : String × Nat) : Prop :=
  b.2 < a.2 ∨ (a.2 = b.2 ∧ strLe a.1 b.1 = true)

instance : DecidableRel byCountDescLex :=
  fun a b => inferInstanceAs (Decidable (b.2 < a.2 ∨ (a.2 = b.2 ∧ strLe a.1 b.1 = true)))

/-- Top-5 page ranking as worded by the spec: sort by count descending with
lexicographic tie-break, take 5. -/
def specTopPagesLex (counts : List (String × Nat)) : List (String × Nat) :=
  (List.insertionSort byCountDescLex counts).take 5

/-- Six sessions on six distinct pages, one each, listed in reverse
alphabetical page order. -/
def c3Sessions : List SessionRec :=
  [mkSession "u" 0 "F" "Direct", mkSession "u" 0 "E" "Direct", mkSession "u" 0 "D" "Direct",
   mkSession "u" 0 "C" "Direct", mkSession "u" 0 "B" "Direct", mkSession "u" 0 "A" "Direct"]

/-- C3 counterexample: with six pages of count 1 each, observed in the
order F, E, D, C, B, A, the implemented top-5 keeps the first-occurrence
order F, E, D, C, B (Python sorted is stable and the key is the count
alone), while the specified lexicographic tie-break would return
A, B, C, D, E; the page "A" demanded by the claim is missing from the
implemented ranking. -/
theorem C3_counterexample :
    (aggregate_overall c3Sessions none [("u", 0)] 0 "All" 14).map (fun r => r.top_pages) =
      some [("F", 1), ("E", 1), ("D", 1), ("C", 1), ("B", 1)]
    ∧ specTopPagesLex (counter (c3Sessions.map (fun s => s.page))) =
      [("A", 1), ("B", 1), ("C", 1), ("D", 1), ("E", 1)]
    ∧ ([(("F" : String), (1 : Nat)), ("E", 1), ("D", 1), ("C", 1), ("B", 1)] ≠
        [(("A" : String), (1 : Nat)), ("B", 1), ("C", 1), ("D", 1), ("E", 1)]) := by
  refine ⟨by decide, by decide, by decide⟩

/-- Characterization of the implemented ranking of an arbitrary session
list: counts sum to the list length; top-5 and bottom-5 are the first five
entries of a sorted permutation of the count table whose tie-classes keep
their first-occurrence order (the stable sort); and when at most five
distinct pages occur, both rankings are permutations of the whole table. -/
theorem ranking_char (fs : List SessionRec) :
    (((counter (fs.map (fun s => s.page))).map (fun p => p.2)).sum = fs.length)
    ∧ (∃ S, List.Perm S (counter (fs.map (fun s => s.page)))
        ∧ List.Sorted byCountDesc S
        ∧ (∀ n, S.filter (fun x => x.2 = n) =
            (counter (fs.map (fun s => s.page))).filter (fun x => x.2 = n))
        ∧ (List.insertionSort byCountDesc (counter (fs.map (fun s => s.page)))).take 5 =
            S.take 5)
    ∧ (∃ S, List.Perm S (counter (fs.map (fun s => s.page)))
        ∧ List.Sorted byCountAsc S
        ∧ (∀ n, S.filter (fun x => x.2 = n) =
            (counter (fs.map (fun s => s.page))).filter (fun x => x.2 = n))
        ∧ (List.insertionSort byCountAsc (counter (fs.map (fun s => s.page)))).take 5 =
            S.take 5)
    ∧ ((counter (fs.map (fun s => s.page))).length ≤ 5 →
        List.Perm
          ((List.insertionSort byCountDesc (counter (fs.map (fun s => s.page)))).take 5)
          (counter (fs.map (fun s => s.page)))
        ∧ List.Perm
          ((List.insertionSort byCountAsc (counter (fs.map (fun s => s.page)))).take 5)
          (counter (fs.map (fun s => s.page)))) := by
  refine ⟨?_, ?_, ?_, ?_⟩
  · rw [counter_sum, List.length_map]
  · refine ⟨List.insertionSort byCountDesc (counter (fs.map (fun s => s.page))),
      List.perm_insertionSort byCountDesc _, List.sorted_insertionSort byCountDesc _, ?_, rfl⟩
    intro n
    exact filter_insertionSort_eq_filter byCountDesc _
      (fun a b ha hb => by
        have ha2 : a.2 = n := by simpa using ha
        have hb2 : b.2 = n := by simpa using hb
        simp [byCountDesc, ha2, hb2]) _
  · refine ⟨List.insertionSort byCountAsc (counter (fs.map (fun s => s.page))),
      List.perm_insertionSort byCountAsc _, List.sorted_insertionSort byCountAsc _, ?_, rfl⟩
    intro n
    exact filter_insertionSort_eq_filter byCountAsc _
      (fun a b ha hb => by
        have ha2 : a.2 = n := by simpa using ha
        have hb2 : b.2 = n := by simpa using hb
        simp [byCountAsc, ha2, hb2]) _
  · intro hlen
    constructor
    · have hperm := List.perm_insertionSort byCountDesc (counter (fs.map (fun s => s.page)))
      rw [List.take_of_length_le (le_trans (le_of_eq hperm.length_eq) hlen)]
      exact hperm
    · have hperm := List.perm_insertionSort byCountAsc (counter (fs.map (fun s => s.page)))
      rw [List.take_of_length_le (le_trans (le_of_eq hperm.length_eq) hlen)]
      exact hperm

/-- C3 (amended): for every overall aggregation that succeeds, the per-page
counts sum to the size of the ranked (filtered) session set; top-5 and
bottom-5 are the first five entries of the count table sorted by count
(descending resp. ascending) with ties kept in first-occurrence order —
the tie-break of the stable Python sort keyed on the count alone, not the
lexicographic page-name tie-break worded in the spec (see the
counterexample) — and with fewer than five distinct pages both rankings
contain exactly all of them. -/
theorem C3_page_ranking
    (sessions : List SessionRec) (db : Option (List (String × Int)))
    (fakeUsers : List (String × Int)) (end_dt thr : Int) (user_filter : String)
    (user_first : List (String × Int))
    (h : fetch_users ((sessions.map (fun s => s.user_id)).dedup) db fakeUsers =
      some user_first) :
    (aggregate_overall sessions db fakeUsers end_dt user_filter thr).elim False (fun r =>
      (((counter (r.filtered_sessions.map (fun s => s.page))).map (fun p => p.2)).sum =
        r.filtered_sessions.length)
      ∧ (∃ S, List.Perm S (counter (r.filtered_sessions.map (fun s => s.page)))
          ∧ List.Sorted byCountDesc S
          ∧ (∀ n, S.filter (fun x => x.2 = n) =
              (counter (r.filtered_sessions.map (fun s => s.page))).filter
                (fun x => x.2 = n))
          ∧ r.top_pages = S.take 5)
      ∧ (∃ S, List.Perm S (counter (r.filtered_sessions.map (fun s => s.page)))
          ∧ List.Sorted byCountAsc S
          ∧ (∀ n, S.filter (fun x => x.2 = n) =
              (counter (r.filtered_sessions.map (fun s => s.page))).filter
                (fun x => x.2 = n))
          ∧ r.bottom_pages = S.take 5)
      ∧ ((counter (r.filtered_sessions.map (fun s => s.page))).length ≤ 5 →
          List.Perm r.top_pages (counter (r.filtered_sessions.map (fun s => s.page)))
          ∧ List.Perm r.bottom_pages
              (counter (r.filtered_sessions.map (fun s => s.page))))) := by
  simp only [aggregate_overall, h, Option.elim]
  exact ranking_char _

/-- C3 witness: one session on page A by a known user. -/
theorem C3_witness :
    fetch_users (([mkSession "u" 0 "A" "Direct"].map (fun s => s.user_id)).dedup)
        none [("u", 0)] = some [("u", 0)]
    ∧ (aggregate_overall [mkSession "u" 0 "A" "Direct"] none [("u", 0)] 0 "All" 14).elim False
        (fun r =>
      (((counter (r.filtered_sessions.map (fun s => s.page))).map (fun p => p.2)).sum =
        r.filtered_sessions.length)
      ∧ (∃ S, List.Perm S (counter (r.filtered_sessions.map (fun s => s.page)))
          ∧ List.Sorted byCountDesc S
          ∧ (∀ n, S.filter (fun x => x.2 = n) =
              (counter (r.filtered_sessions.map (fun s => s.page))).filter
                (fun x => x.2 = n))
          ∧ r.top_pages = S.take 5)
      ∧ (∃ S, List.Perm S (counter (r.filtered_sessions.map (fun s => s.page)))
          ∧ List.Sorted byCountAsc S
          ∧ (∀ n, S.filter (fun x => x.2 = n) =
              (counter (r.filtered_sessions.map (fun s => s.page))).filter
                (fun x => x.2 = n))
          ∧ r.bottom_pages = S.take 5)
      ∧ ((counter (r.filtered_sessions.map (fun s => s.page))).length ≤ 5 →
          List.Perm r.top_pages (counter (r.filtered_sessions.map (fun s => s.page)))
          ∧ List.Perm r.bottom_pages
              (counter (r.filtered_sessions.map (fun s => s.page))))) :=
  ⟨by decide,
   C3_page_ranking [mkSession "u" 0 "A" "Direct"] none [("u", 0)] 0 14 "All" [("u", 0)]
     (by decide)⟩

theorem filter_map_eq_filterMap {β : Type} (f : Nat → β) (p : β → Bool) (l : List Nat) :
    (l.map f).filter p = l.filterMap (fun w => if p (f w) then some (f w) else none) := by
  induction l with
  | nil => rfl
  | cons x xs ih =>
      simp only [List.map_cons, List.filter_cons, List.filterMap_cons]
      cases hp : p (f x) <;> simp [hp, ih]

theorem filterMap_congr_list {α β : Type} (l : List α) (f g : α → Option β)
    (h : ∀ a ∈ l, f a = g a) : l.filterMap f = l.filterMap g := by
  induction l with
  | nil => rfl
  | cons x xs ih =>
      simp only [List.filterMap_cons, h x (by simp)]
      rw [ih (fun a ha => h a (by simp [ha]))]

/-- C5 (amended): for a nonempty session list whose dates lie inside the
window, the pagewise weekly series has exactly one entry per weekday in
Monday-to-Sunday order; an entry's average is the weekday's raw session
count divided by the number of times the weekday occurs in the window when
that number is positive, and is 0 (with a raw count of 0, divisor
defaulted to 1 — no division by zero) when the weekday does not occur in
the window.  The overall weekly series is the same list with the
zero-average weekdays removed: weekdays without sessions are omitted
instead of reported as 0. -/
theorem C5_weekday_series
    (start_dt end_dt : Int) (sessions : List SessionRec)
    (hne : sessions ≠ [])
    (hwin : ∀ s ∈ sessions, dateOf start_dt ≤ dateOf s.timestamp ∧
      dateOf s.timestamp ≤ dateOf end_dt) :
    ∃ L, pagewiseWeeklySeries start_dt end_dt sessions = some L
      ∧ L.map Prod.fst = weekdayNames
      ∧ (∀ w, w < 7 → ∃ q, L.get? w = some (weekdayNames.getD w "", q)
          ∧ (weekdayOccurrences (dateOf start_dt) (dateOf end_dt) w ≠ 0 →
              q = ((sessions.countP (fun s => weekdayIdx (dateOf s.timestamp) = w) : Nat) : Rat) /
                ((weekdayOccurrences (dateOf start_dt) (dateOf end_dt) w : Nat) : Rat))
          ∧ (weekdayOccurrences (dateOf start_dt) (dateOf end_dt) w = 0 →
              q = 0 ∧ sessions.countP (fun s => weekdayIdx (dateOf s.timestamp) = w) = 0))
      ∧ overallWeeklySeries start_dt end_dt sessions =
          some (L.filter (fun e => e.2 ≠ 0)) := by
  have hoccz : ∀ w, weekdayOccurrences (dateOf start_dt) (dateOf end_dt) w = 0 →
      sessions.countP (fun s => weekdayIdx (dateOf s.timestamp) = w) = 0 := by
    intro w hocc
    rw [List.countP_eq_zero]
    intro s hs
    have hdate : dateOf s.timestamp ∈ dateRange (dateOf start_dt) (dateOf end_dt) := by
      obtain ⟨h1, h2⟩ := hwin s hs
      have heq : dateOf s.timestamp =
          dateOf start_dt + ((dateOf s.timestamp - dateOf start_dt).toNat : Int) := by
        omega
      rw [heq, dateRange]
      refine List.mem_map_of_mem (fun i : Nat => dateOf start_dt + (i : Int)) ?_
      refine List.mem_range.mpr ?_
      omega
    have := List.countP_eq_zero.mp hocc _ hdate
    simpa using this
  have hempty : sessions.isEmpty = false := by
    cases sessions with
    | nil => exact absurd rfl hne
    | cons a l => rfl
  refine ⟨(List.range 7).map (fun w =>
      (weekdayNames.getD w "",
        ((sessions.countP (fun s => weekdayIdx (dateOf s.timestamp) = w) : Nat) : Rat) /
          (((if weekdayOccurrences (dateOf start_dt) (dateOf end_dt) w = 0 then 1
            else weekdayOccurrences (dateOf start_dt) (dateOf end_dt) w) : Nat) : Rat))),
    ?_, ?_, ?_, ?_⟩
  · simp [pagewiseWeeklySeries, hempty]
  · rw [List.map_map]
    rfl
  · intro w hw
    refine ⟨((sessions.countP (fun s => weekdayIdx (dateOf s.timestamp) = w) : Nat) : Rat) /
      (((if weekdayOccurrences (dateOf start_dt) (dateOf end_dt) w = 0 then 1
        else weekdayOccurrences (dateOf start_dt) (dateOf end_dt) w) : Nat) : Rat),
      ?_, ?_, ?_⟩
    · rw [List.get?_map, List.get?_range hw]
      rfl
    · intro hocc
      rw [if_neg hocc]
    · intro hocc
      refine ⟨?_, hoccz w hocc⟩
      rw [hoccz w hocc]
      simp
  · rw [filter_map_eq_filterMap]
    simp only [overallWeeklySeries, hempty, Bool.false_eq_true, if_false]
    congr 1
    apply filterMap_congr_list
    intro w _
    by_cases hc : sessions.countP (fun s => weekdayIdx (dateOf s.timestamp) = w) = 0
    · have hq0 : (((sessions.countP (fun s => weekdayIdx (dateOf s.timestamp) = w) : Nat) : Rat) /
          (((if weekdayOccurrences (dateOf start_dt) (dateOf end_dt) w = 0 then 1
            else weekdayOccurrences (dateOf start_dt) (dateOf end_dt) w) : Nat) : Rat)) = 0 := by
        rw [hc]
        simp
      rw [if_pos hc]
      rw [hq0]
      simp
    · have hdenom : ((((if weekdayOccurrences (dateOf start_dt) (dateOf end_dt) w = 0 then 1
          else weekdayOccurrences (dateOf start_dt) (dateOf end_dt) w) : Nat) : Rat)) ≠ 0 := by
        rw [Ne, Nat.cast_eq_zero]
        split <;> omega
      have hqne : (((sessions.countP (fun s => weekdayIdx (dateOf s.timestamp) = w) : Nat) : Rat) /
          (((if weekdayOccurrences (dateOf start_dt) (dateOf end_dt) w = 0 then 1
            else weekdayOccurrences (dateOf start_dt) (dateOf end_dt) w) : Nat) : Rat)) ≠ 0 := by
        rw [div_ne_zero_iff]
        exact ⟨by rwa [Ne, Nat.cast_eq_zero], hdenom⟩
      rw [if_neg hc]
      rw [if_pos (show (decide
          ((((sessions.countP (fun s => weekdayIdx (dateOf s.timestamp) = w) : Nat) : Rat) /
            (((if weekdayOccurrences (dateOf start_dt) (dateOf end_dt) w = 0 then 1
              else weekdayOccurrences (dateOf start_dt) (dateOf end_dt) w) : Nat) : Rat)) ≠ 0)) =
          true from by
        rw [decide_eq_true_eq]
        exact hqne)]

/-- C5 witness: a seven-day window starting on a Monday with a single
Monday session. -/
theorem C5_witness :
    ([mkSession "u" 0 "Home" "Direct"] : List SessionRec) ≠ []
    ∧ (∀ s ∈ ([mkSession "u" 0 "Home" "Direct"] : List SessionRec),
        dateOf 0 ≤ dateOf s.timestamp ∧ dateOf s.timestamp ≤ dateOf (6 * 86400))
    ∧ (∃ L, pagewiseWeeklySeries 0 (6 * 86400) [mkSession "u" 0 "Home" "Direct"] = some L
      ∧ L.map Prod.fst = weekdayNames
      ∧ (∀ w, w < 7 → ∃ q, L.get? w = some (weekdayNames.getD w "", q)
          ∧ (weekdayOccurrences (dateOf 0) (dateOf (6 * 86400)) w ≠ 0 →
              q = (([mkSession "u" 0 "Home" "Direct"].countP
                  (fun s => weekdayIdx (dateOf s.timestamp) = w) : Nat) : Rat) /
                ((weekdayOccurrences (dateOf 0) (dateOf (6 * 86400)) w : Nat) : Rat))
          ∧ (weekdayOccurrences (dateOf 0) (dateOf (6 * 86400)) w = 0 →
              q = 0 ∧ [mkSession "u" 0 "Home" "Direct"].countP
                (fun s => weekdayIdx (dateOf s.timestamp) = w) = 0))
      ∧ overallWeeklySeries 0 (6 * 86400) [mkSession "u" 0 "Home" "Direct"] =
          some (L.filter (fun e => e.2 ≠ 0))) :=
  ⟨by decide, by decide,
   C5_weekday_series 0 (6 * 86400) [mkSession "u" 0 "Home" "Direct"] (by decide) (by decide)⟩

/-- C5 counterexample: the window spans Monday and Tuesday (dates 0 and 1),
with one Monday session.  The weekday Wednesday has zero occurrences in the
window, so by the claim the series should report average 0 for it; but the
weekly series of the overall-analysis module contains exactly one entry,
for Monday, and no Wednesday entry at all (weekdays without sessions are
omitted, not reported as 0). -/
theorem C5_counterexample :
    weekdayOccurrences (dateOf 0) (dateOf 86400) 2 = 0
    ∧ (overallWeeklySeries 0 86400 [mkSession "u" 0 "Home" "Direct"]).map
        (fun L => L.map Prod.fst) = some ["Monday"]
    ∧ "Wednesday" ∉ ["Monday"] := by
  refine ⟨by decide, by decide, by decide⟩

/-- C6 (amended): for a nonempty single-page session list, bounce_rate is
(number of sessions value-equal to the last recorded session) divided by
total_visits, times 100, rounded half-to-even at two decimal places; when
the last session's value occurs exactly once this is the rounded
100 / total_visits of the single positional exit; for the empty list
bounce_rate is 0 and no division occurs. -/
theorem C6_bounce_rate (ps : List SessionRec) (lastS : SessionRec)
    (h : ps.getLast? = some lastS) :
    bounce_rate ps = roundHalfEven2
        (((ps.countP (fun s => s = lastS) : Nat) : Rat) / ((ps.length : Nat) : Rat) * 100)
    ∧ (ps.countP (fun s => s = lastS) = 1 →
        bounce_rate ps = roundHalfEven2 (100 / ((ps.length : Nat) : Rat)))
    ∧ bounce_rate [] = 0 := by
  have hmain : bounce_rate ps = roundHalfEven2
      (((ps.countP (fun s => s = lastS) : Nat) : Rat) / ((ps.length : Nat) : Rat) * 100) := by
    simp [bounce_rate, h]
  refine ⟨hmain, ?_, rfl⟩
  intro h1
  rw [hmain, h1]
  congr 1
  push_cast
  ring

/-- C6 witness: two distinct sessions; the last one is the unique exit. -/
theorem C6_witness :
    ([mkSession "u" 0 "A" "Direct", mkSession "u" 0 "B" "Direct"] :
        List SessionRec).getLast? = some (mkSession "u" 0 "B" "Direct")
    ∧ (bounce_rate [mkSession "u" 0 "A" "Direct", mkSession "u" 0 "B" "Direct"] =
        roundHalfEven2
          ((([mkSession "u" 0 "A" "Direct", mkSession "u" 0 "B" "Direct"].countP
              (fun s => s = mkSession "u" 0 "B" "Direct") : Nat) : Rat) /
            (([mkSession "u" 0 "A" "Direct", mkSession "u" 0 "B" "Direct"].length : Nat) : Rat)
            * 100)
      ∧ ([mkSession "u" 0 "A" "Direct", mkSession "u" 0 "B" "Direct"].countP
            (fun s => s = mkSession "u" 0 "B" "Direct") = 1 →
          bounce_rate [mkSession "u" 0 "A" "Direct", mkSession "u" 0 "B" "Direct"] =
            roundHalfEven2 (100 /
              (([mkSession "u" 0 "A" "Direct", mkSession "u" 0 "B" "Direct"].length : Nat) :
                Rat)))
      ∧ bounce_rate [] = 0) :=
  ⟨by decide,
   C6_bounce_rate [mkSession "u" 0 "A" "Direct", mkSession "u" 0 "B" "Direct"]
     (mkSession "u" 0 "B" "Direct") (by decide)⟩

/-- C6 counterexample: two identical session records (value equality is how
the Python code compares sessions, and dummy-data records are compared by
value): both count as exits, so bounce_rate is 100 although only one
session is the last recorded one — the claim predicts 1/2 x 100 = 50.
With three distinct sessions the reported rate is the rounded 33.33, not
the exact 100/3 the claim asserts. -/
theorem C6_counterexample :
    bounce_rate [mkSession "u" 0 "A" "Direct", mkSession "u" 0 "A" "Direct"] = 100
    ∧ ¬ ((100 : Rat) = 1 / 2 * 100)
    ∧ bounce_rate [mkSession "u" 0 "A" "Direct", mkSession "u" 0 "B" "Direct",
        mkSession "u" 0 "C" "Direct"] = 3333 / 100
    ∧ ¬ ((3333 : Rat) / 100 = 1 / 3 * 100) := by
  have e1 : bounce_rate [mkSession "u" 0 "A" "Direct", mkSession "u" 0 "A" "Direct"] = 100 := by
    have h1 : ([mkSession "u" 0 "A" "Direct", mkSession "u" 0 "A" "Direct"] :
        List SessionRec).getLast? = some (mkSession "u" 0 "A" "Direct") := by decide
    have h2 : [mkSession "u" 0 "A" "Direct", mkSession "u" 0 "A" "Direct"].countP
        (fun s => s = mkSession "u" 0 "A" "Direct") = 2 := by decide
    simp only [bounce_rate, h1, h2]
    norm_num [roundHalfEven2, roundHalfEvenInt]
  have e2 : bounce_rate [mkSession "u" 0 "A" "Direct", mkSession "u" 0 "B" "Direct",
      mkSession "u" 0 "C" "Direct"] = 3333 / 100 := by
    have h1 : ([mkSession "u" 0 "A" "Direct", mkSession "u" 0 "B" "Direct",
        mkSession "u" 0 "C" "Direct"] : List SessionRec).getLast? =
        some (mkSession "u" 0 "C" "Direct") := by decide
    have h2 : [mkSession "u" 0 "A" "Direct", mkSession "u" 0 "B" "Direct",
        mkSession "u" 0 "C" "Direct"].countP
        (fun s => s = mkSession "u" 0 "C" "Direct") = 1 := by decide
    simp only [bounce_rate, h1, h2]
    norm_num [roundHalfEven2, roundHalfEvenInt]
  exact ⟨e1, by norm_num, e2, by norm_num⟩

theorem count_eq_countP_eq {α : Type} [DecidableEq α] (l : List α) (k : α) :
    l.count k = l.countP (fun x => x = k) := by
  induction l with
  | nil => rfl
  | cons hd tl ih =>
      by_cases h : hd = k
      · subst h
        simp [List.count_cons, List.countP_cons, ih]
      · have hb : (k == hd) = false := beq_eq_false_iff_ne.mpr (Ne.symm h)
        simp [List.count_cons, List.countP_cons, ih, hb, h]

theorem mem_endpointsOf (l : List (String × String)) (x : String) :
    x ∈ endpointsOf l ↔ ∃ p, p ∈ l ∧ (x = p.1 ∨ x = p.2) := by
  induction l with
  | nil => simp [endpointsOf]
  | cons p rest ih =>
      simp only [endpointsOf, List.mem_cons, ih]
      constructor
      · rintro (rfl | rfl | ⟨q, hq, hx⟩)
        · exact ⟨p, Or.inl rfl, Or.inl rfl⟩
        · exact ⟨p, Or.inl rfl, Or.inr rfl⟩
        · exact ⟨q, Or.inr hq, hx⟩
      · rintro ⟨q, (rfl | hq), hx⟩
        · rcases hx with rfl | rfl
          · exact Or.inl rfl
          · exact Or.inr (Or.inl rfl)
        · exact Or.inr (Or.inr ⟨q, hq, hx⟩)

theorem mem_keys_counter {α : Type} [DecidableEq α] (l : List α) (k : α) :
    k ∈ (counter l).map Prod.fst ↔ k ∈ l := by
  constructor
  · intro h
    obtain ⟨p, hp, hk⟩ := List.mem_map.mp h
    have := (mem_counter l p.1 p.2).mp (by simpa using hp)
    rw [← hk]
    exact this.1
  · intro h
    exact List.mem_map.mpr ⟨(k, l.count k), (mem_counter l k (l.count k)).mpr ⟨h, rfl⟩, rfl⟩

/-- Characterization of the figure data built from a nonempty paths list:
the edge list records every occurring pair with its occurrence count, and
the node labels are exactly the endpoints of the observed pairs, without
duplicates and sorted. -/
theorem sankeyOf_spec (up : List (String × String)) :
    (∀ a b n, ((a, b), n) ∈ (sankeyOf up).links ↔
      ((a, b) ∈ up ∧ n = up.countP (fun q => q = (a, b))))
    ∧ List.Sorted byStrAsc (sankeyOf up).labels
    ∧ (sankeyOf up).labels.Nodup
    ∧ (∀ x, x ∈ (sankeyOf up).labels ↔ ∃ p, p ∈ up ∧ (x = p.1 ∨ x = p.2)) := by
  refine ⟨?_, ?_, ?_, ?_⟩
  · intro a b n
    rw [← count_eq_countP_eq]
    exact mem_counter up (a, b) n
  · exact List.sorted_insertionSort byStrAsc _
  · exact ((List.perm_insertionSort byStrAsc _).nodup_iff).mpr (List.nodup_dedup _)
  · intro x
    show x ∈ List.insertionSort byStrAsc
      (endpointsOf ((counter up).map (fun pc => pc.1))).dedup ↔ _
    rw [(List.perm_insertionSort byStrAsc _).mem_iff, List.mem_dedup, mem_endpointsOf]
    constructor
    · rintro ⟨p, hp, hx⟩
      exact ⟨p, (mem_keys_counter up p).mp (by simpa using hp), hx⟩
    · rintro ⟨p, hp, hx⟩
      refine ⟨p, ?_, hx⟩
      simpa using (mem_keys_counter up p).mpr hp

/-- C9: the journey-graph builder.  An empty session list yields the
explicit empty figure; a successful build records, as its edge list, every
observed (source, target) pair with its aggregated occurrence count, and
its node labels are exactly the endpoints of the observed pairs, duplicate
free and sorted for stable indexing.  The path-pair list decomposes per
session, and each session's pair chunk begins with an edge out of that
session's referral_source. -/
theorem C9_journey_graph (g : RandState) (sessions : List SessionRec) :
    (build_sankey_figure g [] 3).1 = none
    ∧ (∀ d, (build_sankey_figure g sessions 3).1 = some d →
        ((∀ a b n, ((a, b), n) ∈ d.links ↔
            ((a, b) ∈ (userPaths g 3 sessions).1 ∧
              n = (userPaths g 3 sessions).1.countP (fun q => q = (a, b))))
         ∧ List.Sorted byStrAsc d.labels
         ∧ d.labels.Nodup
         ∧ (∀ x, x ∈ d.labels ↔
             ∃ p, p ∈ (userPaths g 3 sessions).1 ∧ (x = p.1 ∨ x = p.2))))
    ∧ (∀ s rest, (userPaths g 3 (s :: rest)).1 =
        chainPairs ((sessionPages g s 3).1) ++ ((userPaths (sessionPages g s 3).2 3 rest).1))
    ∧ (∀ s : SessionRec, ∃ x tail,
        chainPairs ((sessionPages g s 3).1) = (s.referral_source, x) :: tail) := by
  refine ⟨rfl, ?_, fun s rest => rfl, fun s =>
    ⟨(randChoice g).1, [((randChoice g).1, (randChoice (randChoice g).2).1)], rfl⟩⟩
  intro d hd
  simp only [build_sankey_figure] at hd
  by_cases hup : ((userPaths g 3 sessions).1).isEmpty
  · rw [if_pos hup] at hd
    simp at hd
  · rw [if_neg hup] at hd
    have hd2 : some (sankeyOf (userPaths g 3 sessions).1) = some d := hd
    obtain rfl : sankeyOf (userPaths g 3 sessions).1 = d := Option.some_inj.mp hd2
    exact sankeyOf_spec _

/-- Concrete global RNG state: the draw stream 0, 1, 2, ... -/
def c9State : RandState := RandState.mk (fun n => n) 0

/-- One session with referral source Google. -/
def c9Sessions : List SessionRec := [mkSession "u" 0 "Home" "Google"]

/-- The figure the builder produces from c9State and c9Sessions. -/
def c9Fig : SankeyData :=
  SankeyData.mk ["Explore", "Google", "Home"]
    [(("Google", "Home"), 1), (("Home", "Explore"), 1)] [1, 2] [2, 0] [1, 1]

/-- C9 witness: the concrete build and its verified properties. -/
theorem C9_witness :
    (build_sankey_figure c9State c9Sessions 3).1 = some c9Fig
    ∧ ((∀ a b n, ((a, b), n) ∈ c9Fig.links ↔
          ((a, b) ∈ (userPaths c9State 3 c9Sessions).1 ∧
            n = (userPaths c9State 3 c9Sessions).1.countP (fun q => q = (a, b))))
       ∧ List.Sorted byStrAsc c9Fig.labels
       ∧ c9Fig.labels.Nodup
       ∧ (∀ x, x ∈ c9Fig.labels ↔
           ∃ p, p ∈ (userPaths c9State 3 c9Sessions).1 ∧ (x = p.1 ∨ x = p.2))) :=
  ⟨by decide, (C9_journey_graph c9State c9Sessions).2.1 c9Fig (by decide)⟩

/-- C8 (amended): the session aggregators are pure functions of their
inputs — the embedding gives them no access to the random generator, so
repeated calls with identical inputs are bit-identical — and the
journey-graph builder is a deterministic function of its inputs TOGETHER
WITH the process-global RNG state, which it consumes and advances; it has
no seed parameter, so two consecutive calls with identical session inputs
can differ, as the final conjunct shows on a concrete input. -/
theorem C8_determinism
    (sessions : List SessionRec) (db : Option (List (String × Int)))
    (fakeUsers : List (String × Int)) (end_dt thr : Int) (user_filter page : String)
    (g : RandState) :
    aggregate_overall sessions db fakeUsers end_dt user_filter thr =
      aggregate_overall sessions db fakeUsers end_dt user_filter thr
    ∧ aggregate_pagewise sessions page db fakeUsers end_dt user_filter thr =
      aggregate_pagewise sessions page db fakeUsers end_dt user_filter thr
    ∧ build_sankey_figure g sessions 3 = build_sankey_figure g sessions 3
    ∧ (build_sankey_figure (RandState.mk (fun n => n) 0)
          [mkSession "u" 0 "Home" "Google"] 3).1 ≠
        (build_sankey_figure
          (build_sankey_figure (RandState.mk (fun n => n) 0)
            [mkSession "u" 0 "Home" "Google"] 3).2
          [mkSession "u" 0 "Home" "Google"] 3).1 :=
  ⟨rfl, rfl, rfl, by decide⟩

/-- C8 counterexample: the journey-graph builder draws from the
process-global random generator and exposes no seed parameter; two
consecutive calls with identical session inputs return different figures,
because the global state has advanced in between — so its randomness is
not isolated behind a seed parameter as the claim states. -/
theorem C8_counterexample :
    (build_sankey_figure (RandState.mk (fun n => n) 0)
        [mkSession "u" 0 "Home" "Google"] 3).1 ≠
      (build_sankey_figure
        (build_sankey_figure (RandState.mk (fun n => n) 0)
          [mkSession "u" 0 "Home" "Google"] 3).2
        [mkSession "u" 0 "Home" "Google"] 3).1 := by
  decide
